import Mathlib

/-!
Verification development for the sales-agent pipeline in `run.py`.

The program is shallowly embedded:

* JSON values are the inductive `Json`; Python `dict.get` on a non-dict
  raises, modelled with `Except Unit`.
* Instants (`datetime.datetime`) are microsecond counts (`Int`); calendar
  dates (`datetime.date`) are day indices (`Int`), a day spanning
  `usecPerDay` microseconds, so `datetime.time.max` on day `d` is
  `dayEnd d` and one microsecond later is `dayEnd d + 1`.
* The external services (order API, the two LLM calls) are inputs: the
  order API outcome is an `ApiResult`, an LLM call outcome is an
  `LlmResult`.  The external parsers `json.loads` and
  `dateutil.parser.isoparse(...).date()` are function parameters.
* The module-level cache `_api_cache` is threaded explicitly: a call to
  `get_sales_data` consumes a `Cache` and yields a `SalesFetchResult`
  carrying the returned value, the updated cache, and whether a network
  request was issued.
-/

/-- JSON values, the data interchanged with the order API and the LLM. -/
inductive Json where
  | null : Json
  | bool (b : Bool) : Json
  | num (n : Int) : Json
  | str (s : String) : Json
  | list (xs : List Json) : Json
  | dict (kvs : List (String × Json)) : Json

/-- Association-list lookup, modelling Python `dict` access (keys unique,
first binding wins). -/
def jlookup : List (String × Json) → String → Option Json
  | [], _ => none
  | (k, v) :: rest, key => if k = key then some v else jlookup rest key

/-- Python truthiness of a JSON value (`if not created_time_str:` etc.). -/
def Json.truthy : Json → Bool
  | Json.null => false
  | Json.bool b => b
  | Json.num n => n != 0
  | Json.str s => s ≠ ""
  | Json.list xs => !xs.isEmpty
  | Json.dict kvs => !kvs.isEmpty

/-- Whether a JSON value is a keyed record (a Python `dict`). -/
def Json.isDict : Json → Bool
  | Json.dict _ => true
  | _ => false

/-- Constant `CACHE_DURATION = datetime.timedelta(minutes=5)`, in microseconds. -/
def cacheDuration : Int := 5 * 60 * 1000000

/-- The module-level `_api_cache` record: `data` and `timestamp`. -/
structure Cache where
  data : Option (List Json)
  timestamp : Option Int

/-- Initial `_api_cache = ("data": None, "timestamp": None)` at process start. -/
def initial_api_cache : Cache := ⟨none, none⟩

/-- Outcome of `requests.get(SALES_API_ENDPOINT)`:
either the transport raised (`requests.exceptions.RequestException`), or a
response arrived with an HTTP status and a body (`none` when
`response.json()` cannot decode it). -/
inductive ApiResult where
  | transportError : ApiResult
  | response (status : Nat) (body : Option Json) : ApiResult

/-- Condition under which `response.raise_for_status()` raises: 4xx/5xx statuses. -/
def httpError (status : Nat) : Bool := 400 ≤ status && status < 600

/-- An API outcome the code treats as a failure: transport error,
`raise_for_status` error, or a body `json.loads` cannot decode. -/
def apiFailed : ApiResult → Bool
  | ApiResult.transportError => true
  | ApiResult.response status body => httpError status || body.isNone

/-- The envelope-normalization branch of `get_sales_data`: a dict is
searched for a list under `data`, then `results`, then `orders`; a list is
used directly; anything else yields `None`. -/
def extract_orders : Json → Option (List Json)
  | Json.dict kvs =>
    match jlookup kvs "data" with
    | some (Json.list l) => some l
    | _ =>
      match jlookup kvs "results" with
      | some (Json.list l) => some l
      | _ =>
        match jlookup kvs "orders" with
        | some (Json.list l) => some l
        | _ => none
  | Json.list l => some l
  | _ => none

/-- First key among `keys` whose value in `kvs` is a list.  This follows
the spec wording ("search for the order list under first-match priority
among keys `data`, `results`, `orders` where the value is itself a
sequence") for comparison with `extract_orders`. -/
def firstListKey (kvs : List (String × Json)) : List String → Option (List Json)
  | [] => none
  | k :: ks =>
    match jlookup kvs k with
    | some (Json.list l) => some l
    | _ => firstListKey kvs ks

/-- Spec-worded normalization: sequence used directly, keyed structure
searched under `data`/`results`/`orders`, otherwise absent. -/
def normalize_spec : Json → Option (List Json)
  | Json.list l => some l
  | Json.dict kvs => firstListKey kvs ["data", "results", "orders"]
  | _ => none

/-- Result of one `get_sales_data` call: the value returned, the cache
after the call, and whether a network request was issued. -/
structure SalesFetchResult where
  result : Option (List Json)
  cache : Cache
  requested : Bool

/-- The fetch branch of `get_sales_data` (cache miss): issue the request,
`raise_for_status`, decode JSON, normalize the envelope, and on a resolved
list overwrite both cache fields; every failure returns `None` with the
cache untouched. -/
def fetch_branch (c : Cache) (now : Int) (api : ApiResult) : SalesFetchResult :=
  match api with
  | ApiResult.transportError => ⟨none, c, true⟩
  | ApiResult.response status body =>
    if httpError status then ⟨none, c, true⟩
    else
      match body with
      | none => ⟨none, c, true⟩
      | some j =>
        match extract_orders j with
        | none => ⟨none, c, true⟩
        | some l => ⟨some l, ⟨some l, some now⟩, true⟩

/-- Function `get_sales_data()`.  The cache test mirrors the source exactly:
`if _api_cache["data"] and _api_cache["timestamp"]:` uses Python
truthiness, so a cached *empty* list is falsy and falls through to a
fetch; inside, `if now - timestamp < CACHE_DURATION: return data`. -/
def get_sales_data (c : Cache) (now : Int) (api : ApiResult) : SalesFetchResult :=
  match c.data, c.timestamp with
  | some d, some ts =>
    if d.isEmpty then fetch_branch c now api
    else if now - ts < cacheDuration then ⟨some d, c, false⟩
    else fetch_branch c now api
  | _, _ => fetch_branch c now api

/-- Microseconds in one day; `datetime` has microsecond resolution. -/
def usecPerDay : Int := 86400000000

/-- Instant `datetime.datetime.combine(d, datetime.time.min)`: start of day `d`. -/
def dayStart (d : Int) : Int := d * usecPerDay

/-- Instant `datetime.datetime.combine(d, datetime.time.max)`: the last
representable instant (23:59:59.999999) of day `d`. -/
def dayEnd (d : Int) : Int := d * usecPerDay + (usecPerDay - 1)

/-- The per-order body of the loop in `filter_orders_by_date`.
`order.get("state")` sits *outside* the `try`, so a non-dict order raises
(`Except.error`).  For a dict: the order is kept iff its state equals
`"locked"`, its `createdTime` is truthy, and `isoparse` succeeds on it
with an instant inside `[start_dt, end_dt]`; every failure inside the
`try` (missing field, falsy field, unparseable value) just drops the
order. -/
def keepOrder (iso : String → Option Int) (start_dt end_dt : Int) : Json → Except Unit Bool
  | Json.dict kvs =>
    Except.ok
      (match jlookup kvs "state" with
       | some (Json.str st) =>
         if st = "locked" then
           match jlookup kvs "createdTime" with
           | some ct =>
             if ct.truthy then
               match ct with
               | Json.str s =>
                 match iso s with
                 | some t => decide (start_dt ≤ t ∧ t ≤ end_dt)
                 | none => false
               | _ => false
             else false
           | none => false
         else false
       | _ => false)
  | _ => Except.error ()

/-- The `for order in all_orders` loop: surviving orders are appended in
input order; an exception escaping an iteration aborts the whole call. -/
def filterGo (keep : Json → Except Unit Bool) : List Json → Except Unit (List Json)
  | [] => Except.ok []
  | o :: rest =>
    match keep o with
    | Except.error e => Except.error e
    | Except.ok b =>
      match filterGo keep rest with
      | Except.error e => Except.error e
      | Except.ok r => Except.ok (if b then o :: r else r)

/-- Function `filter_orders_by_date(all_orders, start_date, end_date)`:
`if not all_orders: return []`, then the filtering loop over
`[combine(start, time.min), combine(end, time.max)]`. -/
def filter_orders_by_date (iso : String → Option Int) (all_orders : List Json)
    (start_date end_date : Int) : Except Unit (List Json) :=
  if all_orders.isEmpty then Except.ok []
  else filterGo (keepOrder iso (dayStart start_date) (dayEnd end_date)) all_orders

/-- Predicate `keepOrder` collapsed to a Bool (an erroring order counts as not
kept); used to phrase the filter as `List.filter`. -/
def keepBool (iso : String → Option Int) (start_dt end_dt : Int) (o : Json) : Bool :=
  match keepOrder iso start_dt end_dt o with
  | Except.ok b => b
  | Except.error _ => false

/-- Spec-worded keep predicate: state equals `"locked"` and the parsed
`createdTime` lies in `[start_dt, end_dt]` inclusive. -/
def specKeep (iso : String → Option Int) (start_dt end_dt : Int) : Json → Bool
  | Json.dict kvs =>
    (match jlookup kvs "state" with
     | some (Json.str st) => st = "locked"
     | _ => false)
    &&
    (match jlookup kvs "createdTime" with
     | some (Json.str s) =>
       match iso s with
       | some t => decide (start_dt ≤ t ∧ t ≤ end_dt)
       | none => false
     | _ => false)
  | _ => false

/-- A `createdTime` field the filter loop drops without keeping the
order: absent, empty string, unparseable string, or a non-string value
(on which `isoparse` raises inside the `try`). -/
def createdTimeBad (iso : String → Option Int) (kvs : List (String × Json)) : Prop :=
  match jlookup kvs "createdTime" with
  | none => True
  | some (Json.str s) => s = "" ∨ iso s = none
  | some _ => True

/-- Outcome of one LLM call: the request raised, or a response text came
back. -/
inductive LlmResult where
  | raises : LlmResult
  | returns (text : String) : LlmResult

/-- Python `str.replace` on character lists, fuelled (the fuel is the
input length, ample since each step consumes at least one character). -/
def replaceAllFuel (pat rep : List Char) : Nat → List Char → List Char
  | _, [] => []
  | 0, s => s
  | Nat.succ fuel, c :: rest =>
    if pat.isPrefixOf (c :: rest) then
      rep ++ replaceAllFuel pat rep fuel (List.drop pat.length (c :: rest))
    else
      c :: replaceAllFuel pat rep fuel rest

/-- Python `str.replace(pat, rep)` (all occurrences, left to right). -/
def pyReplace (s pat rep : String) : String :=
  String.mk (replaceAllFuel pat.data rep.data s.data.length s.data)

/-- Python `str.strip()`: whitespace removed from both ends. -/
def pyStrip (s : String) : String :=
  String.mk (((s.data.dropWhile Char.isWhitespace).reverse.dropWhile Char.isWhitespace).reverse)

/-- Cleanup `response.text.strip().replace("```json", "").replace("```", "")`. -/
def clean_llm_json (t : String) : String :=
  pyReplace (pyReplace (pyStrip t) "```json" "") "```" ""

/-- Access `dates[key]` followed by `isoparse(...)`: succeeds only when `dates`
is a dict holding a string at `key` (a missing key raises `KeyError`, a
non-dict raises `TypeError`, a non-string value makes `isoparse` raise —
all landing in the same `except`). -/
def pyIndexStr (j : Json) (key : String) : Option String :=
  match j with
  | Json.dict kvs =>
    match jlookup kvs key with
    | some (Json.str s) => some s
    | _ => none
  | _ => none

/-- The parsing half of `get_date_range_from_llm`: clean the text, decode
it as JSON, index the two date fields, parse each as a calendar date.
`none` means some step raised. -/
def parse_llm_dates (jsonLoads : String → Option Json) (iso : String → Option Int)
    (text : String) : Option (Int × Int) :=
  match jsonLoads (clean_llm_json text) with
  | none => none
  | some dates =>
    match pyIndexStr dates "start_date" with
    | none => none
    | some s1 =>
      match pyIndexStr dates "end_date" with
      | none => none
      | some s2 =>
        match iso s1 with
        | none => none
        | some d1 =>
          match iso s2 with
          | none => none
          | some d2 => some (d1, d2)

/-- Function `get_date_range_from_llm(client, user_query)`: the LLM call outcome is
an input; any raise anywhere in the `try` falls back to
`(today, today)`. -/
def get_date_range_from_llm (jsonLoads : String → Option Json) (iso : String → Option Int)
    (today : Int) (llm : LlmResult) : Int × Int :=
  match llm with
  | LlmResult.raises => (today, today)
  | LlmResult.returns t =>
    match parse_llm_dates jsonLoads iso t with
    | some p => p
    | none => (today, today)

/-- The fixed apology returned when the analysis call fails. -/
def apologyText : String :=
  "I\x27m sorry, I encountered an error while analyzing the sales data."

/-- Function `get_analysis_from_gemini(client, user_query, orders)`: the prompt
carries the query and the serialized orders to the external model; the
call outcome is an input.  On success the response text is returned
verbatim, on any exception the fixed apology string. -/
def get_analysis_from_gemini (llm : LlmResult) (user_query : String)
    (orders : List Json) : String :=
  match llm with
  | LlmResult.returns t => t
  | LlmResult.raises => apologyText

/-- Cache-entry invariant from the spec: `data` is present iff
`timestamp` is present. -/
def cacheInv (c : Cache) : Prop := c.data.isSome = c.timestamp.isSome

/-- Whether a filtering run completed without raising. -/
def exceptOk : Except Unit (List Json) → Bool
  | Except.ok _ => true
  | Except.error _ => false

/- ------------------------------------------------------------------ -/
/- Helper lemmas                                                       -/
/- ------------------------------------------------------------------ -/

theorem fetch_branch_failed (c : Cache) (now : Int) (api : ApiResult)
    (h : apiFailed api = true) : fetch_branch c now api = ⟨none, c, true⟩ := by
  cases api with
  | transportError => rfl
  | response status body =>
    simp only [apiFailed, Bool.or_eq_true] at h
    by_cases hE : httpError status = true
    · simp [fetch_branch, hE]
    · rcases h with h | h
      · exact absurd h hE
      · cases body with
        | none => simp [fetch_branch, hE]
        | some j => simp at h

theorem get_sales_data_requested (c : Cache) (now : Int) (api : ApiResult)
    (h : (get_sales_data c now api).requested = true) :
    get_sales_data c now api = fetch_branch c now api := by
  obtain ⟨cd, cts⟩ := c
  cases cd with
  | none => cases cts <;> rfl
  | some d =>
    cases cts with
    | none => rfl
    | some ts =>
      by_cases hd : d.isEmpty = true
      · simp [get_sales_data, hd]
      · by_cases hts : now - ts < cacheDuration
        · simp [get_sales_data, hd, hts] at h
        · simp [get_sales_data, hd, hts]

theorem isDict_exists {o : Json} (h : o.isDict = true) : ∃ kvs, o = Json.dict kvs := by
  cases o <;> simp [Json.isDict] at h ⊢

theorem keepOrder_dict (iso : String → Option Int) (a b : Int)
    (kvs : List (String × Json)) :
    keepOrder iso a b (Json.dict kvs) = Except.ok (keepBool iso a b (Json.dict kvs)) := rfl

theorem filterGo_all_dict (iso : String → Option Int) (a b : Int) :
    ∀ (l : List Json), (∀ o ∈ l, o.isDict = true) →
      filterGo (keepOrder iso a b) l = Except.ok (l.filter (keepBool iso a b)) := by
  intro l
  induction l with
  | nil => intro _; rfl
  | cons o rest ih =>
    intro h
    obtain ⟨kvs, rfl⟩ := isDict_exists (h o (by simp))
    have hrest := ih (fun x hx => h x (by simp [hx]))
    simp only [filterGo, keepOrder_dict, hrest, List.filter_cons]

theorem keepBool_eq_specKeep (iso : String → Option Int) (a b : Int)
    (hiso : iso "" = none) (o : Json) :
    keepBool iso a b o = specKeep iso a b o := by
  cases o with
  | dict kvs =>
    simp only [keepBool, keepOrder, specKeep]
    cases hst : jlookup kvs "state" with
    | none => rfl
    | some v =>
      cases v with
      | str st =>
        by_cases hlock : st = "locked"
        · simp only [hlock, if_pos rfl]
          cases hct : jlookup kvs "createdTime" with
          | none => simp
          | some ct =>
            cases ct with
            | str s =>
              by_cases hs : s = ""
              · subst hs
                simp [Json.truthy, hiso]
              · simp [Json.truthy, hs]
            | null => simp [Json.truthy]
            | bool bb => cases bb <;> simp [Json.truthy]
            | num n => by_cases hn : n = 0 <;> simp [Json.truthy, hn]
            | list xs => cases xs <;> simp [Json.truthy]
            | dict ks => cases ks <;> simp [Json.truthy]
        · simp [hlock]
      | null => rfl
      | bool bb => rfl
      | num n => rfl
      | list xs => rfl
      | dict ks => rfl
  | null => rfl
  | bool bb => rfl
  | num n => rfl
  | str s => rfl
  | list xs => rfl

theorem filterGo_skip (keep : Json → Except Unit Bool) (o : Json)
    (h : keep o = Except.ok false) :
    ∀ (l1 l2 : List Json),
      filterGo keep (l1 ++ o :: l2) = filterGo keep (l1 ++ l2) := by
  intro l1 l2
  induction l1 with
  | nil =>
    simp only [List.nil_append, filterGo, h]
    cases hr : filterGo keep l2 <;> simp
  | cons c l1 ih =>
    simp only [List.cons_append, filterGo, List.append_eq, ih]

theorem keepOrder_bad_created (iso : String → Option Int) (a b : Int)
    (kvs : List (String × Json)) (h : createdTimeBad iso kvs) :
    keepOrder iso a b (Json.dict kvs) = Except.ok false := by
  simp only [keepOrder]
  cases hst : jlookup kvs "state" with
  | none => rfl
  | some v =>
    cases v with
    | str st =>
      by_cases hlock : st = "locked"
      · simp only [hlock, if_pos rfl]
        unfold createdTimeBad at h
        cases hct : jlookup kvs "createdTime" with
        | none => rfl
        | some ct =>
          rw [hct] at h
          cases ct with
          | str s =>
            rcases h with h | h
            · subst h; simp [Json.truthy]
            · by_cases hs : s = ""
              · subst hs; simp [Json.truthy]
              · simp [Json.truthy, hs, h]
          | null => simp [Json.truthy]
          | bool bb => cases bb <;> simp [Json.truthy]
          | num n => by_cases hn : n = 0 <;> simp [Json.truthy, hn]
          | list xs => cases xs <;> simp [Json.truthy]
          | dict ks => cases ks <;> simp [Json.truthy]
      · simp [hlock]
    | null => rfl
    | bool bb => rfl
    | num n => rfl
    | list xs => rfl
    | dict ks => rfl

theorem filter_orders_skip (iso : String → Option Int) (sd ed : Int)
    (l1 l2 : List Json) (kvs : List (String × Json))
    (h : keepOrder iso (dayStart sd) (dayEnd ed) (Json.dict kvs) = Except.ok false) :
    filter_orders_by_date iso (l1 ++ Json.dict kvs :: l2) sd ed =
      filter_orders_by_date iso (l1 ++ l2) sd ed := by
  unfold filter_orders_by_date
  have hgo := filterGo_skip (keepOrder iso (dayStart sd) (dayEnd ed)) (Json.dict kvs) h l1 l2
  have hne : (l1 ++ Json.dict kvs :: l2).isEmpty = false := by
    cases l1 <;> rfl
  rw [hne]
  by_cases hrest : (l1 ++ l2).isEmpty = true
  · have : l1 ++ l2 = [] := by
      cases l1 with
      | nil =>
        cases l2 with
        | nil => rfl
        | cons _ _ => simp at hrest
      | cons _ _ => simp at hrest
    simp only [hrest, if_pos rfl, Bool.false_eq_true, if_false]
    rw [hgo, this]
    rfl
  · simp only [Bool.false_eq_true, if_false, hgo, eq_false_of_ne_true hrest, if_false]

/- ------------------------------------------------------------------ -/
/- Claim theorems                                                      -/
/- ------------------------------------------------------------------ -/

/-- Claim C1, counterexample.  The claim says every call made while the
cache holds a previously fetched sequence with a fresh timestamp returns
the cached sequence and issues no network request.  With a cached *empty*
sequence and timestamp 0 at time 0 (fresh), the code nevertheless issues
a request (the truthiness test `if _api_cache["data"]` fails on an empty
list) and returns the fetch outcome instead of the cached sequence. -/
theorem c1_fresh_empty_cache_refetches :
    (get_sales_data ⟨some [], some 0⟩ 0 ApiResult.transportError).requested = true ∧
    (get_sales_data ⟨some [], some 0⟩ 0 ApiResult.transportError).result = none := ⟨rfl, rfl⟩

/-- Claim C1, amended: whenever the cache holds a previously fetched
*non-empty* order sequence whose timestamp is less than 5 minutes before
`now`, the call returns the cached sequence unchanged, leaves the cache
unchanged, and issues no network request, whatever the API would do. -/
theorem c1_cache_hit_amended :
    ∀ (c : Cache) (d : List Json) (ts now : Int) (api : ApiResult),
      c.data = some d → d ≠ [] → c.timestamp = some ts →
      now - ts < cacheDuration →
      get_sales_data c now api = ⟨some d, c, false⟩ := by
  intro c d ts now api hd hne hts hfresh
  obtain ⟨cd, cts⟩ := c
  simp only at hd hts
  subst hd; subst hts
  have hemp : d.isEmpty = false := by
    cases d with
    | nil => exact absurd rfl hne
    | cons _ _ => rfl
  simp [get_sales_data, hemp, hfresh]

/-- Claim C1, witness for the amended theorem at a concrete input. -/
theorem c1_cache_hit_amended_witness :
    get_sales_data ⟨some [Json.null], some 0⟩ 0 ApiResult.transportError =
      ⟨some [Json.null], ⟨some [Json.null], some 0⟩, false⟩ :=
  c1_cache_hit_amended ⟨some [Json.null], some 0⟩ [Json.null] 0 0
    ApiResult.transportError rfl (by simp) rfl (by decide)

/-- Claim C6: whenever a network request is issued and the API outcome is
a failure (transport error, 4xx/5xx status, or a body that is not JSON),
`get_sales_data` returns `None` and both cache fields are left exactly as
they were before the call. -/
theorem c6_failed_fetch_preserves_cache :
    ∀ (c : Cache) (now : Int) (api : ApiResult),
      (get_sales_data c now api).requested = true →
      apiFailed api = true →
      (get_sales_data c now api).result = none ∧
      (get_sales_data c now api).cache = c := by
  intro c now api hreq hfail
  rw [get_sales_data_requested c now api hreq, fetch_branch_failed c now api hfail]
  exact ⟨rfl, rfl⟩

/-- Claim C6, witness at a concrete input (empty cache, transport error). -/
theorem c6_failed_fetch_preserves_cache_witness :
    (get_sales_data initial_api_cache 0 ApiResult.transportError).result = none ∧
    (get_sales_data initial_api_cache 0 ApiResult.transportError).cache = initial_api_cache :=
  c6_failed_fetch_preserves_cache initial_api_cache 0 ApiResult.transportError rfl rfl

theorem fetch_branch_requested (c : Cache) (now : Int) (api : ApiResult) :
    (fetch_branch c now api).requested = true := by
  cases api with
  | transportError => rfl
  | response status body =>
    by_cases hE : httpError status = true
    · simp [fetch_branch, hE]
    · cases body with
      | none => simp [fetch_branch, hE]
      | some j => cases hx : extract_orders j <;> simp [fetch_branch, hE, hx]

theorem fetch_branch_extract_none (c : Cache) (now : Int) (status : Nat) (j : Json)
    (hE : httpError status = false) (hx : extract_orders j = none) :
    fetch_branch c now (ApiResult.response status (some j)) = ⟨none, c, true⟩ := by
  simp [fetch_branch, hE, hx]

theorem fetch_branch_extract_some (c : Cache) (now : Int) (status : Nat) (j : Json)
    (l : List Json) (hE : httpError status = false) (hx : extract_orders j = some l) :
    fetch_branch c now (ApiResult.response status (some j)) =
      ⟨some l, ⟨some l, some now⟩, true⟩ := by
  simp [fetch_branch, hE, hx]

theorem get_sales_data_cache_hit (c : Cache) (now : Int) (api : ApiResult)
    (h : (get_sales_data c now api).requested = false) :
    ∃ d, get_sales_data c now api = ⟨some d, c, false⟩ := by
  obtain ⟨cd, cts⟩ := c
  cases cd with
  | none =>
    exfalso
    have heq : get_sales_data ⟨none, cts⟩ now api = fetch_branch ⟨none, cts⟩ now api := by
      cases cts <;> rfl
    rw [heq, fetch_branch_requested] at h
    simp at h
  | some d =>
    cases cts with
    | none =>
      exfalso
      have heq : get_sales_data ⟨some d, none⟩ now api = fetch_branch ⟨some d, none⟩ now api := rfl
      rw [heq, fetch_branch_requested] at h
      simp at h
    | some ts =>
      by_cases hd : d.isEmpty = true
      · exfalso
        have heq : get_sales_data ⟨some d, some ts⟩ now api =
            fetch_branch ⟨some d, some ts⟩ now api := by
          simp [get_sales_data, hd]
        rw [heq, fetch_branch_requested] at h
        simp at h
      · by_cases hts : now - ts < cacheDuration
        · exact ⟨d, by simp [get_sales_data, hd, hts]⟩
        · exfalso
          have heq : get_sales_data ⟨some d, some ts⟩ now api =
              fetch_branch ⟨some d, some ts⟩ now api := by
            simp [get_sales_data, hd, hts]
          rw [heq, fetch_branch_requested] at h
          simp at h

/-- Claim C8: the invariant "`data` is present iff `timestamp` is
present" holds for the initial cache and is preserved by every call;
moreover every failing outcome (result `None`) changes neither field, and
a successful fetch overwrites both fields together with the new list and
the current instant. -/
theorem c8_cache_invariant :
    cacheInv initial_api_cache ∧
    ∀ (c : Cache) (now : Int) (api : ApiResult),
      cacheInv c →
      cacheInv (get_sales_data c now api).cache ∧
      ((get_sales_data c now api).result = none → (get_sales_data c now api).cache = c) ∧
      (∀ l, (get_sales_data c now api).requested = true →
        (get_sales_data c now api).result = some l →
        (get_sales_data c now api).cache = ⟨some l, some now⟩) := by
  refine ⟨rfl, ?_⟩
  intro c now api hinv
  by_cases hreq : (get_sales_data c now api).requested = true
  · rw [get_sales_data_requested c now api hreq]
    cases api with
    | transportError =>
      exact ⟨hinv, fun _ => rfl, fun l _ h => by simp [fetch_branch] at h⟩
    | response status body =>
      by_cases hE : httpError status = true
      · rw [fetch_branch_failed c now _ (by simp [apiFailed, hE])]
        exact ⟨hinv, fun _ => rfl, fun l _ h => by simp at h⟩
      · have hE' : httpError status = false := by
          revert hE; cases httpError status <;> simp
        cases body with
        | none =>
          rw [fetch_branch_failed c now _ (by simp [apiFailed])]
          exact ⟨hinv, fun _ => rfl, fun l _ h => by simp at h⟩
        | some j =>
          cases hx : extract_orders j with
          | none =>
            rw [fetch_branch_extract_none c now status j hE' hx]
            exact ⟨hinv, fun _ => rfl, fun l _ h => by simp at h⟩
          | some l =>
            rw [fetch_branch_extract_some c now status j l hE' hx]
            refine ⟨rfl, fun h => by simp at h, fun l2 _ h => ?_⟩
            simp only [Option.some_inj] at h
            rw [← h]
  · have hreq' : (get_sales_data c now api).requested = false := by
      revert hreq; cases (get_sales_data c now api).requested <;> simp
    obtain ⟨d, hd⟩ := get_sales_data_cache_hit c now api hreq'
    rw [hd]
    exact ⟨hinv, fun _ => rfl, fun l hl => by simp at hl⟩

/-- Claim C8, witness: one failing call on the initial cache keeps the
invariant and the cache value. -/
theorem c8_cache_invariant_witness :
    cacheInv (get_sales_data initial_api_cache 0 ApiResult.transportError).cache ∧
    (get_sales_data initial_api_cache 0 ApiResult.transportError).cache = initial_api_cache :=
  ⟨(c8_cache_invariant.2 initial_api_cache 0 ApiResult.transportError rfl).1,
   (c8_cache_invariant.2 initial_api_cache 0 ApiResult.transportError rfl).2.1 rfl⟩

/-- Claim C3: for a request that was actually issued and came back 2xx
with a JSON body, `get_sales_data` normalizes the body per the spec rule
(`extract_orders` agrees everywhere with the spec-worded
`normalize_spec`: a list is used directly, a dict is searched for a list
value under `data`, `results`, `orders` in that order), the call returns
exactly that normalization, and when it is absent the cache is not
updated. -/
theorem c3_envelope_normalization :
    (∀ j, extract_orders j = normalize_spec j) ∧
    (∀ (c : Cache) (now : Int) (status : Nat) (j : Json),
      (get_sales_data c now (ApiResult.response status (some j))).requested = true →
      200 ≤ status → status < 300 →
      (get_sales_data c now (ApiResult.response status (some j))).result = extract_orders j ∧
      (extract_orders j = none →
        (get_sales_data c now (ApiResult.response status (some j))).cache = c)) := by
  constructor
  · intro j
    cases j <;> simp only [extract_orders, normalize_spec, firstListKey]
  · intro c now status j hreq h2xx h2xx'
    have hE : httpError status = false := by
      simp only [httpError, Bool.and_eq_false_iff, decide_eq_false_iff_not, not_le, not_lt]
      left
      omega
    rw [get_sales_data_requested c now _ hreq]
    cases hx : extract_orders j with
    | none => rw [fetch_branch_extract_none c now status j hE hx]; exact ⟨rfl, fun _ => rfl⟩
    | some l =>
      rw [fetch_branch_extract_some c now status j l hE hx]
      exact ⟨rfl, fun h => by cases h⟩

/-- Claim C3, witness: a 200 response with body `("results": [null])` on
an empty cache yields exactly the list under `results`. -/
theorem c3_envelope_normalization_witness :
    (get_sales_data initial_api_cache 0
        (ApiResult.response 200 (some (Json.dict [("results", Json.list [Json.null])])))).result =
      extract_orders (Json.dict [("results", Json.list [Json.null])]) :=
  (c3_envelope_normalization.2 initial_api_cache 0 200
    (Json.dict [("results", Json.list [Json.null])]) rfl (by decide) (by decide)).1

/-- Claim C2: for record orders, `filter_orders_by_date` returns exactly
the stable subsequence of orders whose state is `"locked"` and whose
parsed `createdTime` lies in `[start 00:00:00, end 23:59:59.999999]`
inclusive (phrased as `List.filter` with the spec-worded predicate
`specKeep`; the hypothesis `iso "" = none` records that `isoparse`
rejects the empty string, as `dateutil` does); in particular an order
whose `createdTime` parses exactly to the last representable
instant is kept, and one parsing one microsecond past it is dropped. -/
theorem c2_filter_characterization :
    (∀ (iso : String → Option Int), iso "" = none →
      ∀ (orders : List Json), (∀ o ∈ orders, o.isDict = true) →
      ∀ (s e : Int),
        filter_orders_by_date iso orders s e =
          Except.ok (orders.filter (specKeep iso (dayStart s) (dayEnd e)))) ∧
    (∀ (iso : String → Option Int) (s e : Int) (kvs : List (String × Json)) (ct : String),
      s ≤ e →
      jlookup kvs "state" = some (Json.str "locked") →
      jlookup kvs "createdTime" = some (Json.str ct) →
      iso ct = some (dayEnd e) →
      specKeep iso (dayStart s) (dayEnd e) (Json.dict kvs) = true) ∧
    (∀ (iso : String → Option Int) (s e : Int) (kvs : List (String × Json)) (ct : String),
      jlookup kvs "state" = some (Json.str "locked") →
      jlookup kvs "createdTime" = some (Json.str ct) →
      iso ct = some (dayEnd e + 1) →
      specKeep iso (dayStart s) (dayEnd e) (Json.dict kvs) = false) := by
  refine ⟨?_, ?_, ?_⟩
  · intro iso hiso orders hdict s e
    cases orders with
    | nil => rfl
    | cons o os =>
      have hfun : keepBool iso (dayStart s) (dayEnd e) = specKeep iso (dayStart s) (dayEnd e) :=
        funext (keepBool_eq_specKeep iso (dayStart s) (dayEnd e) hiso)
      have hgo := filterGo_all_dict iso (dayStart s) (dayEnd e) (o :: os) hdict
      calc filter_orders_by_date iso (o :: os) s e
          = filterGo (keepOrder iso (dayStart s) (dayEnd e)) (o :: os) := rfl
        _ = Except.ok ((o :: os).filter (keepBool iso (dayStart s) (dayEnd e))) := hgo
        _ = Except.ok ((o :: os).filter (specKeep iso (dayStart s) (dayEnd e))) := by rw [hfun]
  · intro iso s e kvs ct hse hst hct hiso
    have hle : dayStart s ≤ dayEnd e := by
      have h1 : s * usecPerDay ≤ e * usecPerDay :=
        mul_le_mul_of_nonneg_right hse (by norm_num [usecPerDay])
      have h2 : (0:Int) ≤ usecPerDay - 1 := by norm_num [usecPerDay]
      simp only [dayStart, dayEnd]
      linarith
    simp [specKeep, hst, hct, hiso, hle]
  · intro iso s e kvs ct hst hct hiso
    have hnot : ¬(dayStart s ≤ dayEnd e + 1 ∧ dayEnd e + 1 ≤ dayEnd e) := by
      rintro ⟨_, h⟩
      omega
    simp [specKeep, hst, hct, hiso, hnot]

/-- Claim C2, witness: one locked order whose timestamp parses to the
start of day 0 survives filtering over the range day 0 to day 0. -/
theorem c2_filter_characterization_witness :
    filter_orders_by_date (fun s => if s = "T0" then some (dayStart 0) else none)
      [Json.dict [("state", Json.str "locked"), ("createdTime", Json.str "T0")]] 0 0 =
      Except.ok [Json.dict [("state", Json.str "locked"), ("createdTime", Json.str "T0")]] := by
  have h := c2_filter_characterization.1 (fun s => if s = "T0" then some (dayStart 0) else none)
    rfl [Json.dict [("state", Json.str "locked"), ("createdTime", Json.str "T0")]]
    (by intro o ho; rw [List.mem_singleton] at ho; subst ho; rfl) 0 0
  simpa using h

/-- Claim C7, counterexample.  The claim says the filter is total on
arbitrary input lists.  A non-record element makes `order.get("state")` —
which sits outside the `try` — raise, aborting the whole call, so the
locked order after it is never processed. -/
theorem c7_nondict_aborts_filtering :
    filter_orders_by_date (fun _ => none)
      [Json.num 0, Json.dict [("state", Json.str "locked")]] 0 0 = Except.error () := rfl

/-- Claim C7, amended: on lists whose elements are records, the filter is
total, and a record order whose `createdTime` is missing, empty,
unparseable or non-string is excluded without raising while every other
order in the list is still processed (the call equals the call on the
list without that order). -/
theorem c7_totality_amended :
    (∀ (iso : String → Option Int) (sd ed : Int) (l : List Json),
      (∀ o ∈ l, o.isDict = true) →
      exceptOk (filter_orders_by_date iso l sd ed) = true) ∧
    (∀ (iso : String → Option Int) (sd ed : Int) (l1 l2 : List Json)
        (kvs : List (String × Json)),
      createdTimeBad iso kvs →
      filter_orders_by_date iso (l1 ++ Json.dict kvs :: l2) sd ed =
        filter_orders_by_date iso (l1 ++ l2) sd ed) := by
  constructor
  · intro iso sd ed l hdict
    cases l with
    | nil => rfl
    | cons o os =>
      have hgo := filterGo_all_dict iso (dayStart sd) (dayEnd ed) (o :: os) hdict
      have heq : filter_orders_by_date iso (o :: os) sd ed =
          filterGo (keepOrder iso (dayStart sd) (dayEnd ed)) (o :: os) := rfl
      rw [heq, hgo]
      rfl
  · intro iso sd ed l1 l2 kvs hbad
    exact filter_orders_skip iso sd ed l1 l2 kvs
      (keepOrder_bad_created iso (dayStart sd) (dayEnd ed) kvs hbad)

/-- Claim C7, witness: a record order with an unparseable `createdTime`
in front of a valid locked order is skipped and the valid order is still
returned. -/
theorem c7_totality_amended_witness :
    filter_orders_by_date (fun s => if s = "T0" then some (dayStart 0) else none)
      ([] ++ Json.dict [("state", Json.str "locked"), ("createdTime", Json.str "bad")] ::
        [Json.dict [("state", Json.str "locked"), ("createdTime", Json.str "T0")]]) 0 0 =
      filter_orders_by_date (fun s => if s = "T0" then some (dayStart 0) else none)
        ([] ++ [Json.dict [("state", Json.str "locked"), ("createdTime", Json.str "T0")]]) 0 0 :=
  c7_totality_amended.2 (fun s => if s = "T0" then some (dayStart 0) else none) 0 0
    [] [Json.dict [("state", Json.str "locked"), ("createdTime", Json.str "T0")]]
    [("state", Json.str "locked"), ("createdTime", Json.str "bad")] (Or.inr rfl)

/-- Claim C10: an order whose `createdTime` field holds the empty string
is treated exactly like an order with the field missing — excluded with
no parse attempt (the equations hold for *every* parse function `iso`)
and without raising, the rest of the list being filtered unchanged. -/
theorem c10_empty_createdTime_like_missing :
    ∀ (iso : String → Option Int) (sd ed : Int) (l1 l2 : List Json)
      (kvs kvs2 : List (String × Json)),
      jlookup kvs "createdTime" = some (Json.str "") →
      jlookup kvs2 "createdTime" = none →
      filter_orders_by_date iso (l1 ++ Json.dict kvs :: l2) sd ed =
        filter_orders_by_date iso (l1 ++ Json.dict kvs2 :: l2) sd ed ∧
      filter_orders_by_date iso (l1 ++ Json.dict kvs :: l2) sd ed =
        filter_orders_by_date iso (l1 ++ l2) sd ed := by
  intro iso sd ed l1 l2 kvs kvs2 h1 h2
  have hb1 : createdTimeBad iso kvs := by
    unfold createdTimeBad
    rw [h1]
    exact Or.inl rfl
  have hb2 : createdTimeBad iso kvs2 := by
    unfold createdTimeBad
    rw [h2]
    trivial
  have e1 := filter_orders_skip iso sd ed l1 l2 kvs
    (keepOrder_bad_created iso (dayStart sd) (dayEnd ed) kvs hb1)
  have e2 := filter_orders_skip iso sd ed l1 l2 kvs2
    (keepOrder_bad_created iso (dayStart sd) (dayEnd ed) kvs2 hb2)
  exact ⟨e1.trans e2.symm, e1⟩

/-- Claim C10, witness: a single order carrying `createdTime` `""` is
dropped, the call returning what it returns on the empty list. -/
theorem c10_empty_createdTime_like_missing_witness :
    filter_orders_by_date (fun _ => none)
      ([] ++ Json.dict [("createdTime", Json.str "")] :: []) 0 0 =
      filter_orders_by_date (fun _ => none) ([] ++ []) 0 0 :=
  (c10_empty_createdTime_like_missing (fun _ => none) 0 0 [] [] [("createdTime", Json.str "")]
    [] rfl rfl).2

/-- Claim C4: `get_date_range_from_llm` never propagates a failure: if
the LLM call raises, or the returned text does not survive the whole
parse pipeline (cleanup, JSON decoding, field access, date validation),
the result is exactly `(today, today)`. -/
theorem c4_date_range_fallback :
    ∀ (jsonLoads : String → Option Json) (iso : String → Option Int) (today : Int),
      get_date_range_from_llm jsonLoads iso today LlmResult.raises = (today, today) ∧
      ∀ t, parse_llm_dates jsonLoads iso t = none →
        get_date_range_from_llm jsonLoads iso today (LlmResult.returns t) = (today, today) := by
  intro jl iso today
  refine ⟨rfl, fun t h => ?_⟩
  simp [get_date_range_from_llm, h]

/-- Claim C4, witness: an LLM answering garbage text (nothing decodes as
JSON) resolves to `(today, today)` with `today = 5`. -/
theorem c4_date_range_fallback_witness :
    get_date_range_from_llm (fun _ => none) (fun _ => none) 5 (LlmResult.returns "asdkfj") =
      (5, 5) :=
  (c4_date_range_fallback (fun _ => none) (fun _ => none) 5).2 "asdkfj" rfl

/-- Claim C5: whatever the query and the filtered order list, if the
analysis LLM call fails the function returns the fixed apology string
rather than propagating the error. -/
theorem c5_analysis_apology :
    ∀ (user_query : String) (orders : List Json),
      get_analysis_from_gemini LlmResult.raises user_query orders =
        "I\x27m sorry, I encountered an error while analyzing the sales data." :=
  fun _ _ => rfl

/-- Claim C9: when the cleaned response text decodes to a JSON object
whose `start_date` and `end_date` fields are strings parsing as valid
calendar dates, `get_date_range_from_llm` returns exactly that parsed
pair. -/
theorem c9_exact_dates_returned :
    ∀ (jsonLoads : String → Option Json) (iso : String → Option Int) (today : Int)
      (t : String) (kvs : List (String × Json)) (s1 s2 : String) (d1 d2 : Int),
      jsonLoads (clean_llm_json t) = some (Json.dict kvs) →
      jlookup kvs "start_date" = some (Json.str s1) →
      jlookup kvs "end_date" = some (Json.str s2) →
      iso s1 = some d1 → iso s2 = some d2 →
      get_date_range_from_llm jsonLoads iso today (LlmResult.returns t) = (d1, d2) := by
  intro jl iso today t kvs s1 s2 d1 d2 hjl h1 h2 hd1 hd2
  simp [get_date_range_from_llm, parse_llm_dates, pyIndexStr, hjl, h1, h2, hd1, hd2]

/-- Claim C9, witness: a response decoding to
`("start_date": "A", "end_date": "B")` with `"A"`, `"B"` parsing to days
100 and 200 yields `(100, 200)`. -/
theorem c9_exact_dates_returned_witness :
    get_date_range_from_llm
      (fun s => if s = "DATES" then
        some (Json.dict [("start_date", Json.str "A"), ("end_date", Json.str "B")]) else none)
      (fun s => if s = "A" then some 100 else if s = "B" then some 200 else none)
      5 (LlmResult.returns "DATES") = (100, 200) :=
  c9_exact_dates_returned
    (fun s => if s = "DATES" then
      some (Json.dict [("start_date", Json.str "A"), ("end_date", Json.str "B")]) else none)
    (fun s => if s = "A" then some 100 else if s = "B" then some 200 else none)
    5 "DATES" [("start_date", Json.str "A"), ("end_date", Json.str "B")] "A" "B" 100 200
    rfl rfl rfl rfl rfl
